import Mathlib

/-!
Verification of the Evoluit-M evoluism-s repository: the regression
diagnostics engine of src/app.py (compute_ols_metrics, compute_risk_score)
and the CCM scenario calculator of src/ccm-v1.0/app/ccm_calculator.py
(innovation_multiplier, run_scenario).

Floating-point arithmetic of the Python source is modelled by exact
rational arithmetic (ℚ); a float NaN is modelled by the none case of an
Option.  The CCM calculator uses math.exp, modelled by Real.exp over ℝ.
-/

namespace Evoluism

/-! ## compute_risk_score  (src/app.py lines 66-82)

The Python source, step by step:

    r2_part = max(0.0, min(1.0, r2))
    dw_dist = abs(2.0 - dw)
    dw_part = max(0.0, min(1.0, (2.0 - dw_dist) / 2.0))
    if np.isnan(pval): p_part = 0.5
    else:
        pval_clipped = max(0.0, min(1.0, float(pval)))
        p_part = 1.0 - min(1.0, pval_clipped / 0.2)
    score = 100.0 * (0.4 * r2_part + 0.3 * dw_part + 0.3 * p_part)
    return float(np.clip(score, 0.0, 100.0))

The p-value argument is an Option ℚ: none models a float NaN (the
np.isnan branch), some p models an ordinary float value p. -/

/-- r2_part of compute_risk_score: max(0.0, min(1.0, r2)). -/
def r2Part (r2 : ℚ) : ℚ := max 0 (min 1 r2)

/-- dw_part of compute_risk_score: max(0.0, min(1.0, (2.0 - abs(2.0 - dw)) / 2.0)). -/
def dwPart (dw : ℚ) : ℚ := max 0 (min 1 ((2 - |2 - dw|) / 2))

/-- p_part of compute_risk_score: 0.5 on NaN, else 1.0 - min(1.0, clip(pval,0,1) / 0.2). -/
def pPart (pval : Option ℚ) : ℚ :=
  match pval with
  | none => 0.5
  | some p => 1 - min 1 (max 0 (min 1 p) / 0.2)

/-- compute_risk_score of src/app.py: the heuristic 0-100 spurious
regression risk score. -/
def compute_risk_score (r2 dw : ℚ) (pval : Option ℚ) : ℚ :=
  let score := 100 * (0.4 * r2Part r2 + 0.3 * dwPart dw + 0.3 * pPart pval)
  max 0 (min 100 score)

/-! Spec-side restatement of the "literal legacy formula" of the spec
(section 4.1, spurious_risk_score), for the refinement claim C1:
score = clamp(100 * (0.4*clamp(r2,0,1) + 0.3*clamp((2-|2-dw|)/2,0,1)
               + 0.3*p_part), 0, 100)
with p_part = 0.5 on NaN and otherwise clamp(1 - clamp(p,0,1)/0.2, 0, 1). -/

/-- clamp(v, lo, hi) as written in the spec. -/
def clamp (v lo hi : ℚ) : ℚ := max lo (min hi v)

/-- Legacy risk-score formula as the spec words it (sections 4.1 and 8 of
spec.md), to be compared with compute_risk_score. -/
def legacySpecScore (r2 dw : ℚ) (pval : Option ℚ) : ℚ :=
  let p_part : ℚ :=
    match pval with
    | none => 0.5
    | some p => clamp (1 - clamp p 0 1 / 0.2) 0 1
  clamp (100 * (0.4 * clamp r2 0 1 + 0.3 * clamp ((2 - |2 - dw|) / 2) 0 1
      + 0.3 * p_part)) 0 100

/-! ## compute_ols_metrics  (src/app.py lines 50-63)

The Python source:

    x_const = sm.add_constant(x)
    model = sm.OLS(y, x_const).fit()
    dw = sm.stats.stattools.durbin_watson(model.resid)
    r2 = model.rsquared
    slope_name = x_const.columns[-1]
    pval = float(model.pvalues.get(slope_name, np.nan))
    return model, dw, r2, pval

The function performs no validation of its own; its behaviour is that of
the statsmodels pipeline it calls, embedded here over exact rationals:

- sm.add_constant with its default has_constant of skip does NOT add the
  intercept column when x is already a constant NONZERO column; a constant
  zero column or a non-constant column gets the intercept prepended.
- sm.OLS(y, X).fit solves least squares by Moore-Penrose pseudoinverse.
  For the three reachable designs this is: a single column x (x a nonzero
  constant, coefficient dot x y / dot x x); the full-rank design of ones
  and a non-constant x (textbook closed form); the singular design of ones
  and an all-zero x (minimum-norm solution: intercept mean y, slope 0,
  rank 1).
- statsmodels detects a constant column in every reachable design, so
  rsquared is always centered: 1 - ssr / tss, a float NaN (modelled none)
  when the centered total sum of squares is 0.
- durbin_watson divides by the residual sum of squares; numpy float
  division yields NaN silently (modelled none) when it is 0, no exception.
- model.pvalues for the slope is 2 * SF_t(abs(slope) / sqrt(v), dfResid)
  with v the classical slope sampling variance sigma2 * M where sigma2 =
  ssr / dfResid (NaN when dfResid = 0) and M the last diagonal entry of
  the pseudoinverse of XᵀX (1 / Sxx for the full-rank design).  The
  Student t survival function is transcendental, so the embedding records
  the pair (slopeVar, dfResid) that determines the p-value instead of the
  p-value itself; slopeVar is none exactly when sigma2 is NaN.
- mismatched lengths of y and X (and empty input) raise a ValueError
  inside statsmodels: modelled as the none result; no truncation of any
  kind is performed.

statsmodels raises no InsufficientDataError or DegenerateResidualsError;
no such names exist anywhere in the repository. -/

/-- Sum of a list of rationals. -/
def lsum (l : List ℚ) : ℚ := l.foldr (fun a b => a + b) 0

/-- Dot product of two lists (zipped, stopping at the shorter). -/
def dot (a b : List ℚ) : ℚ := lsum (List.zipWith (fun u v => u * v) a b)

/-- Sum of squares. -/
def sumSq (l : List ℚ) : ℚ := dot l l

/-- Arithmetic mean (0 on the empty list, never used there). -/
def mean (l : List ℚ) : ℚ := lsum l / (l.length : ℚ)

/-- List with the mean subtracted from every entry. -/
def centered (l : List ℚ) : List ℚ := l.map (fun v => v - mean l)

/-- Test of sm.add_constant (has_constant = skip): a column counts as an
existing constant when it is nonempty, all entries equal and all nonzero. -/
def isNonzeroConst (x : List ℚ) : Bool :=
  match x with
  | [] => false
  | a :: t => decide (a ≠ 0) && t.all (fun b => decide (b = a))

/-- sm.stats.stattools.durbin_watson: sum of squared successive residual
differences over the residual sum of squares; none models the float NaN
produced by numpy when the denominator is zero. -/
def durbin_watson (e : List ℚ) : Option ℚ :=
  if sumSq e = 0 then none
  else some (sumSq (List.zipWith (fun u v => u - v) e.tail e) / sumSq e)

/-- Output record of compute_ols_metrics: coefficient list (design order),
residuals, residual degrees of freedom, centered R squared (none = NaN),
Durbin-Watson (none = NaN), and the classical sampling variance of the
last (slope) coefficient (none = NaN), which together with dfResid
determines the returned two-sided p-value. -/
structure OLSMetrics where
  params : List ℚ
  resid : List ℚ
  dfResid : ℕ
  r2 : Option ℚ
  dw : Option ℚ
  slopeVar : Option ℚ
deriving DecidableEq

/-- compute_ols_metrics of src/app.py over exact rationals: the
statsmodels OLS fit plus diagnostics, with none for an exception raised
inside statsmodels (mismatched or empty input). -/
def compute_ols_metrics (y x : List ℚ) : Option OLSMetrics :=
  if y.length = x.length ∧ 1 ≤ y.length then
    if isNonzeroConst x then
      let b := dot x y / dot x x
      let resid := List.zipWith (fun yi xi => yi - b * xi) y x
      let dfR := y.length - 1
      let ssr := sumSq resid
      let tss := sumSq (centered y)
      some { params := [b]
             resid := resid
             dfResid := dfR
             r2 := if tss = 0 then none else some (1 - ssr / tss)
             dw := durbin_watson resid
             slopeVar := if dfR = 0 then none else some ((ssr / (dfR : ℚ)) / dot x x) }
    else if x.all (fun v => decide (v = 0)) then
      let a := mean y
      let resid := y.map (fun yi => yi - a)
      let dfR := y.length - 1
      let ssr := sumSq resid
      let tss := sumSq (centered y)
      some { params := [a, 0]
             resid := resid
             dfResid := dfR
             r2 := if tss = 0 then none else some (1 - ssr / tss)
             dw := durbin_watson resid
             slopeVar := if dfR = 0 then none else some 0 }
    else
      let sxx := sumSq (centered x)
      let b := dot (centered x) (centered y) / sxx
      let a := mean y - b * mean x
      let resid := List.zipWith (fun yi xi => yi - (a + b * xi)) y x
      let dfR := y.length - 2
      let ssr := sumSq resid
      let tss := sumSq (centered y)
      some { params := [a, b]
             resid := resid
             dfResid := dfR
             r2 := if tss = 0 then none else some (1 - ssr / tss)
             dw := durbin_watson resid
             slopeVar := if dfR = 0 then none else some ((ssr / (dfR : ℚ)) / sxx) }
  else none

/-! ## Reference OLS and the Newey-West HAC slope variance (spec side)

These definitions follow the words of the spec (sections 4.1 and 8 of
spec.md), for comparison against compute_ols_metrics: the textbook OLS
closed form is the reference computation of the known-dataset test, and
the HAC variance is the robust covariance the spec prescribes for the
slope p-value, which the code never computes. -/

/-- Reference OLS slope on centered data: Sxy / Sxx. -/
def refSlope (y x : List ℚ) : ℚ := dot (centered x) (centered y) / sumSq (centered x)

/-- Reference OLS intercept: mean y - slope * mean x. -/
def refIntercept (y x : List ℚ) : ℚ := mean y - refSlope y x * mean x

/-- Reference residuals of the OLS fit. -/
def refResid (y x : List ℚ) : List ℚ :=
  List.zipWith (fun yi xi => yi - (refIntercept y x + refSlope y x * xi)) y x

/-- Reference centered R squared: 1 - SSR / SST. -/
def refR2 (y x : List ℚ) : ℚ := 1 - sumSq (refResid y x) / sumSq (centered y)

/-- Reference Durbin-Watson statistic on the reference residuals. -/
def refDW (y x : List ℚ) : ℚ :=
  sumSq (List.zipWith (fun u v => u - v) (refResid y x).tail (refResid y x))
    / sumSq (refResid y x)

/-- Spec truncation lag for the HAC kernel: max(1, floor(0.75 * cube root
of n)).  For naturals, floor(0.75 * n ^ (1/3)) is the greatest m with
64 * m ^ 3 ≤ 27 * n. -/
def hacLag (n : ℕ) : ℕ :=
  max 1 (Nat.findGreatest (fun m => 64 * m ^ 3 ≤ 27 * n) n)

/-- Symmetric 2 by 2 matrix accumulator for the HAC sums. -/
structure M2 where
  m00 : ℚ
  m01 : ℚ
  m10 : ℚ
  m11 : ℚ
deriving DecidableEq

/-- Entrywise sum of 2 by 2 matrices. -/
def addM (p q : M2) : M2 :=
  { m00 := p.m00 + q.m00, m01 := p.m01 + q.m01
    m10 := p.m10 + q.m10, m11 := p.m11 + q.m11 }

/-- Scalar multiple of a 2 by 2 matrix. -/
def smulM (w : ℚ) (p : M2) : M2 :=
  { m00 := w * p.m00, m01 := w * p.m01, m10 := w * p.m10, m11 := w * p.m11 }

/-- Transpose of a 2 by 2 matrix. -/
def transpM (p : M2) : M2 :=
  { m00 := p.m00, m01 := p.m10, m10 := p.m01, m11 := p.m11 }

/-- Lag-l autocovariance matrix of the score vectors g_t = (e_t, x_t e_t):
entry (i, j) is the sum over t of g_t(i) * g_(t-l)(j). -/
def gammaL (g : List (ℚ × ℚ)) (l : ℕ) : M2 :=
  let pairs := List.zipWith (fun u v => (u, v)) (g.drop l) g
  { m00 := lsum (pairs.map fun p => p.1.1 * p.2.1)
    m01 := lsum (pairs.map fun p => p.1.1 * p.2.2)
    m10 := lsum (pairs.map fun p => p.1.2 * p.2.1)
    m11 := lsum (pairs.map fun p => p.1.2 * p.2.2) }

/-- Newey-West HAC sampling variance of the slope for the intercept-plus-x
design, as the spec prescribes it: Bartlett weights 1 - l/(lag+1) on the
score autocovariances, sandwiched between the last row of the inverse of
XᵀX on both sides. -/
def specHacSlopeVar (y x : List ℚ) (lag : ℕ) : ℚ :=
  let n : ℚ := (y.length : ℚ)
  let sxx := sumSq (centered x)
  let b := dot (centered x) (centered y) / sxx
  let a := mean y - b * mean x
  let e := List.zipWith (fun yi xi => yi - (a + b * xi)) y x
  let g := List.zipWith (fun xi ei => (ei, xi * ei)) x e
  let S := (List.range lag).foldr
    (fun i acc =>
      let l : ℕ := i + 1
      let w : ℚ := 1 - (l : ℚ) / ((lag : ℚ) + 1)
      let gl := gammaL g l
      addM acc (smulM w (addM gl (transpM gl))))
    (gammaL g 0)
  let r0 := -(lsum x) / (n * sxx)
  let r1 := n / (n * sxx)
  r0 * r0 * S.m00 + r0 * r1 * S.m01 + r1 * r0 * S.m10 + r1 * r1 * S.m11

/-- Known small dataset of the spec (section 8), regressor. -/
def xKnown : List ℚ := [1, 2, 3, 4, 5, 6, 7, 8, 9, 10]

/-- Known small dataset of the spec (section 8), dependent variable. -/
def yKnown : List ℚ := [2, 4, 5, 4, 5, 7, 8, 7, 9, 10]

/-! ## CCM scenario calculator  (src/ccm-v1.0/app/ccm_calculator.py)

run_scenario and innovation_multiplier, embedded over ℝ with math.exp
modelled by Real.exp; an optional float argument of Python (None or a
number) is an Option ℝ. -/

/-- Result record of run_scenario (the ScenarioResult dataclass). -/
structure ScenarioResult where
  country : String
  c_quality_2024 : ℝ
  delta_c : ℝ
  beta : ℝ
  multiplier : ℝ
  patents_2024 : Option ℝ
  patents_2040 : Option ℝ
  exports_2024 : Option ℝ
  exports_2040 : Option ℝ

/-- innovation_multiplier of ccm_calculator.py: exp(beta * delta_c). -/
noncomputable def innovation_multiplier (beta delta_c : ℝ) : ℝ :=
  Real.exp (beta * delta_c)

/-- run_scenario of ccm_calculator.py. -/
noncomputable def run_scenario (country : String)
    (c_quality_2024 delta_c beta : ℝ)
    (patents_2024 exports_2024 : Option ℝ) : ScenarioResult :=
  let m := innovation_multiplier beta delta_c
  { country := country
    c_quality_2024 := c_quality_2024
    delta_c := delta_c
    beta := beta
    multiplier := m
    patents_2024 := patents_2024
    patents_2040 := patents_2024.map (fun p => p * m)
    exports_2024 := exports_2024
    exports_2040 := exports_2024.map (fun e => e * m) }

lemma pPart_eq_spec (pval : Option ℚ) :
    pPart pval = match pval with
      | none => 0.5
      | some p => clamp (1 - clamp p 0 1 / 0.2) 0 1 := by
  rcases pval with _ | p
  · rfl
  · show 1 - min 1 (max 0 (min 1 p) / 0.2) = max 0 (min 1 (1 - max 0 (min 1 p) / 0.2))
    set c : ℚ := max 0 (min 1 p) with hc
    have hc0 : 0 ≤ c := le_max_left _ _
    have hdiv : 0 ≤ c / 0.2 := by positivity
    rcases le_total (c / 0.2) 1 with h | h
    · rw [min_eq_right h, min_eq_right (by linarith), max_eq_right (by linarith)]
    · rw [min_eq_left h, min_eq_right (by linarith), max_eq_left (by linarith)]
      norm_num

lemma dwPart_eq_one_iff (dw : ℚ) : dwPart dw = 1 ↔ dw = 2 := by
  unfold dwPart
  constructor
  · intro h
    have habs : 0 ≤ |2 - dw| := abs_nonneg _
    by_contra hne
    have hpos : 0 < |2 - dw| := by
      rcases habs.lt_or_eq with h1 | h1
      · exact h1
      · exact absurd (by linarith [abs_eq_zero.mp h1.symm] : dw = 2) hne
    have hlt : (2 - |2 - dw|) / 2 < 1 := by linarith
    have : max 0 (min 1 ((2 - |2 - dw|) / 2)) < 1 := by
      rcases le_total ((2 - |2 - dw|) / 2) 0 with h2 | h2
      · have : min 1 ((2 - |2 - dw|) / 2) ≤ 0 := le_trans (min_le_right _ _) h2
        calc max 0 (min 1 ((2 - |2 - dw|) / 2)) = 0 := max_eq_left this
          _ < 1 := by norm_num
      · rw [min_eq_right (le_of_lt hlt), max_eq_right h2]; exact hlt
    linarith [h ▸ this]
  · intro h
    subst h
    norm_num

/-- C1: compute_risk_score equals the literal legacy spec formula at every
input, dw_part equals 1 exactly when durbin_watson = 2, and
compute_risk_score(1.0, 2.0, 0.0) = 100.0 exactly. -/
theorem risk_score_is_legacy_formula :
    (∀ r2 dw pval, compute_risk_score r2 dw pval = legacySpecScore r2 dw pval)
    ∧ (∀ dw, dwPart dw = 1 ↔ dw = 2)
    ∧ compute_risk_score 1 2 (some 0) = 100 := by
  refine ⟨?_, dwPart_eq_one_iff, by norm_num [compute_risk_score, r2Part, dwPart, pPart]⟩
  intro r2 dw pval
  unfold compute_risk_score legacySpecScore
  rw [pPart_eq_spec]
  rcases pval with _ | p <;> simp only [r2Part, dwPart, clamp]

/-- C6: compute_risk_score is total over ℚ and its value always lies in
the interval from 0 to 100, whatever the inputs (also outside the nominal
ranges of r_squared and durbin_watson). -/
theorem risk_score_bounded (r2 dw : ℚ) (pval : Option ℚ) :
    0 ≤ compute_risk_score r2 dw pval ∧ compute_risk_score r2 dw pval ≤ 100 := by
  unfold compute_risk_score
  constructor
  · exact le_max_left _ _
  · exact max_le (by norm_num) (min_le_left _ _)

/-- Witness for risk_score_bounded at a concrete out-of-range input. -/
theorem risk_score_bounded_witness :
    0 ≤ compute_risk_score (-3) 7 (some 2) ∧ compute_risk_score (-3) 7 (some 2) ≤ 100 :=
  risk_score_bounded (-3) 7 (some 2)

/-- C7: on a NaN p-value compute_risk_score uses p_part = 0.5 exactly,
for every r_squared and durbin_watson; on an ordinary p-value,
p_part = clamp(1 - clamp(p,0,1)/0.2, 0, 1). -/
theorem risk_score_nan_pvalue_neutral :
    pPart none = 0.5
    ∧ (∀ r2 dw, compute_risk_score r2 dw none
        = max 0 (min 100 (100 * (0.4 * r2Part r2 + 0.3 * dwPart dw + 0.3 * 0.5))))
    ∧ (∀ p, pPart (some p) = clamp (1 - clamp p 0 1 / 0.2) 0 1) := by
  refine ⟨rfl, fun r2 dw => rfl, fun p => pPart_eq_spec (some p)⟩

/-- C8: with durbin_watson and the p-value held fixed, compute_risk_score
is non-decreasing in r_squared. -/
theorem risk_score_mono_r2 (dw : ℚ) (pval : Option ℚ) (r2a r2b : ℚ)
    (h : r2a ≤ r2b) :
    compute_risk_score r2a dw pval ≤ compute_risk_score r2b dw pval := by
  unfold compute_risk_score
  have hpart : r2Part r2a ≤ r2Part r2b :=
    max_le_max le_rfl (min_le_min le_rfl h)
  have : 100 * (0.4 * r2Part r2a + 0.3 * dwPart dw + 0.3 * pPart pval)
      ≤ 100 * (0.4 * r2Part r2b + 0.3 * dwPart dw + 0.3 * pPart pval) := by
    nlinarith
  exact max_le_max le_rfl (min_le_min le_rfl this)

/-- Witness for risk_score_mono_r2 at concrete inputs 0 ≤ 1. -/
theorem risk_score_mono_r2_witness :
    (0 : ℚ) ≤ 1 ∧ compute_risk_score 0 1 none ≤ compute_risk_score 1 1 none :=
  ⟨by norm_num, risk_score_mono_r2 1 none 0 1 (by norm_num)⟩

lemma durbin_watson_eq_none_iff (e : List ℚ) :
    durbin_watson e = none ↔ sumSq e = 0 := by
  unfold durbin_watson
  split <;> simp_all

set_option maxHeartbeats 2000000

/-- C9: on the known small dataset of the spec the engine output equals
the reference OLS computation exactly (so in particular within 1e-6
relative tolerance): intercept 26/15, slope 131/165, and the reference
centered R squared and Durbin-Watson values. -/
theorem known_dataset_matches_reference :
    ((compute_ols_metrics yKnown xKnown).map fun m => (m.params, m.r2, m.dw))
        = some ([refIntercept yKnown xKnown, refSlope yKnown xKnown],
            some (refR2 yKnown xKnown), some (refDW yKnown xKnown))
    ∧ refSlope yKnown xKnown = 131 / 165
    ∧ refIntercept yKnown xKnown = 26 / 15
    ∧ refR2 yKnown xKnown = 17161 / 18777
    ∧ refDW yKnown xKnown = 99553 / 44440 := by
  refine ⟨?_, ?_⟩
  · norm_num [compute_ols_metrics, isNonzeroConst, durbin_watson, sumSq, dot, lsum,
      mean, centered, refSlope, refIntercept, refResid, refR2, refDW,
      xKnown, yKnown, List.zipWith, List.foldr, List.map, List.all]
  · norm_num [refSlope, refIntercept, refResid, refR2, refDW, sumSq, dot, lsum,
      mean, centered, xKnown, yKnown, List.zipWith, List.foldr, List.map]

/-- C3 counterexample: a zero-variance regressor with n = 3 does not make
compute_ols_metrics fail; a complete diagnostics record is returned
(slope 2/5 on the single-column design, R squared 0, Durbin-Watson 1,
a finite slope sampling variance). -/
theorem zero_variance_x_returns_full_record :
    ((compute_ols_metrics [1, 2, 3] [5, 5, 5]).map
        fun m => (m.params, m.resid, m.r2, m.dw, m.slopeVar))
      = some ([2 / 5], [-1, 0, 1], some 0, some 1, some (1 / 75)) := by
  norm_num [compute_ols_metrics, isNonzeroConst, durbin_watson, sumSq, dot, lsum,
    mean, centered, List.zipWith, List.foldr, List.map, List.all]

/-- C3 amended: compute_ols_metrics never fails on same-length nonempty
input, whatever the sample size or the variance of x; it always returns
a diagnostics record. -/
theorem fit_never_raises_insufficient_data (y x : List ℚ)
    (h1 : y.length = x.length) (h2 : 1 ≤ y.length) :
    (compute_ols_metrics y x).isSome = true := by
  unfold compute_ols_metrics
  rw [if_pos ⟨h1, h2⟩]
  split
  · rfl
  · split <;> rfl

/-- Witness for fit_never_raises_insufficient_data at a concrete
zero-variance input. -/
theorem fit_never_raises_insufficient_data_witness :
    (compute_ols_metrics [1, 2, 3] [4, 4, 4]).isSome = true :=
  fit_never_raises_insufficient_data [1, 2, 3] [4, 4, 4] (by decide) (by decide)

/-- C4 counterexample: on the perfect linear fit y = 2 + 3x the engine
recovers intercept 2 and slope 3 with all residuals 0, and the
Durbin-Watson value is silently NaN (none); no error of any kind is
raised. -/
theorem perfect_fit_dw_nan_silently :
    ((compute_ols_metrics [2, 5, 8, 11] [0, 1, 2, 3]).map
        fun m => (m.params, m.resid, m.dw))
      = some ([2, 3], [0, 0, 0, 0], none) := by
  norm_num [compute_ols_metrics, isNonzeroConst, durbin_watson, sumSq, dot, lsum,
    mean, centered, List.zipWith, List.foldr, List.map, List.all]

/-- C4 amended: whenever compute_ols_metrics returns a record, its
Durbin-Watson field is NaN (none) exactly when the residual sum of
squares is zero; the NaN is returned silently, not signalled. -/
theorem dw_nan_iff_zero_residual_ss (y x : List ℚ) (m : OLSMetrics)
    (h : compute_ols_metrics y x = some m) :
    m.dw = none ↔ sumSq m.resid = 0 := by
  unfold compute_ols_metrics at h
  by_cases hc : y.length = x.length ∧ 1 ≤ y.length
  · rw [if_pos hc] at h
    by_cases h1 : isNonzeroConst x
    · rw [if_pos h1] at h
      have hm := Option.some.inj h
      subst hm
      exact durbin_watson_eq_none_iff _
    · rw [if_neg h1] at h
      by_cases h2 : x.all (fun v => decide (v = 0))
      · rw [if_pos h2] at h
        have hm := Option.some.inj h
        subst hm
        exact durbin_watson_eq_none_iff _
      · rw [if_neg h2] at h
        have hm := Option.some.inj h
        subst hm
        exact durbin_watson_eq_none_iff _
  · rw [if_neg hc] at h
    exact absurd h (by simp)

/-- Witness for dw_nan_iff_zero_residual_ss at the perfect-fit input. -/
theorem dw_nan_iff_zero_residual_ss_witness :
    ((OLSMetrics.mk [2, 3] [0, 0, 0, 0] 2 (some 1) none (some 0)).dw = none
      ↔ sumSq (OLSMetrics.mk [2, 3] [0, 0, 0, 0] 2 (some 1) none (some 0)).resid = 0) :=
  dw_nan_iff_zero_residual_ss [2, 5, 8, 11] [0, 1, 2, 3] _ (by
    norm_num [compute_ols_metrics, isNonzeroConst, durbin_watson, sumSq, dot, lsum,
      mean, centered, List.zipWith, List.foldr, List.map, List.all])

/-- C5 counterexample: inputs of different lengths are not truncated to
the common length; the fit fails outright (the statsmodels size check),
returning nothing. -/
theorem mismatched_lengths_give_error :
    compute_ols_metrics [1, 2, 3] [1, 2] = none := by
  decide

/-- C5 amended: no truncation to min(len(Y), len(X)) happens anywhere;
compute_ols_metrics produces a result exactly when the two sequences
already have the same nonzero length, and then uses all n pairs. -/
theorem fit_defined_iff_equal_lengths (y x : List ℚ) :
    (compute_ols_metrics y x).isSome = true
      ↔ (y.length = x.length ∧ 1 ≤ y.length) := by
  unfold compute_ols_metrics
  by_cases h : y.length = x.length ∧ 1 ≤ y.length
  · rw [if_pos h]
    refine ⟨fun _ => h, fun _ => ?_⟩
    split
    · rfl
    · split <;> rfl
  · rw [if_neg h]
    simp [h]

/-- C2: the engine returns the classical OLS slope p-value, not the
Newey-West HAC p-value the spec prescribes.  On the known dataset the
slope sampling variance behind the returned p-value is the classical
202/27225 with 8 residual degrees of freedom, while the spec HAC
variance at the spec lag hacLag 10 = 1 is 25384/7486875; the two-sided
p-value 2 SF_t(slope/sqrt(v), 8) is strictly monotone in v at the fixed
nonzero slope 131/165, so the two p-values differ.  The spec lag rule
itself gives 3 at n = 64 and 1 at n = 8. -/
theorem slope_pvalue_is_classical_not_hac :
    ((compute_ols_metrics yKnown xKnown).map fun m => (m.slopeVar, m.dfResid))
        = some (some (202 / 27225), 8)
    ∧ hacLag 10 = 1
    ∧ specHacSlopeVar yKnown xKnown (hacLag 10) = 25384 / 7486875
    ∧ (202 / 27225 : ℚ) ≠ 25384 / 7486875
    ∧ hacLag 64 = 3 ∧ hacLag 8 = 1 := by
  refine ⟨?_, by decide, ?_, by norm_num, by decide, by decide⟩
  · norm_num [compute_ols_metrics, isNonzeroConst, durbin_watson, sumSq, dot, lsum,
      mean, centered, xKnown, yKnown, List.zipWith, List.foldr, List.map, List.all]
  · norm_num [specHacSlopeVar, hacLag, gammaL, addM, smulM, transpM, sumSq, dot, lsum,
      mean, centered, xKnown, yKnown, Nat.findGreatest, List.zipWith, List.foldr,
      List.map, List.range, List.range.loop, List.drop]

/-- C10: run_scenario scales the optional 2024 patents and exports
figures by exp(beta * delta_c) exactly when they are present (None maps
to None), and passes country, c_quality_2024, delta_c and beta through
unchanged. -/
theorem run_scenario_fields (country : String) (cq dc b : ℝ)
    (patents exports : Option ℝ) :
    ((run_scenario country cq dc b patents exports).patents_2040 = none
        ↔ (run_scenario country cq dc b patents exports).patents_2024 = none)
    ∧ ((run_scenario country cq dc b patents exports).exports_2040 = none
        ↔ (run_scenario country cq dc b patents exports).exports_2024 = none)
    ∧ (run_scenario country cq dc b patents exports).patents_2040
        = patents.map (fun p => p * Real.exp (b * dc))
    ∧ (run_scenario country cq dc b patents exports).exports_2040
        = exports.map (fun e => e * Real.exp (b * dc))
    ∧ (run_scenario country cq dc b patents exports).country = country
    ∧ (run_scenario country cq dc b patents exports).c_quality_2024 = cq
    ∧ (run_scenario country cq dc b patents exports).delta_c = dc
    ∧ (run_scenario country cq dc b patents exports).beta = b := by
  refine ⟨?_, ?_, rfl, rfl, rfl, rfl, rfl, rfl⟩
  · cases patents <;> simp [run_scenario]
  · cases exports <;> simp [run_scenario]

end Evoluism
